import Mathlib

/-!
Verification of the ingestion-and-reconciliation core of the
Social-Media-Sentiment-Analysis repository.

The Python sources are shallowly embedded as executable Lean functions:

* `resolveCurrentQuery` / `getLatestDbQuery` embed
  `fetch_and_store.py` (`resolve_current_query`, `get_latest_db_query`);
  the SQLAlchemy session is embedded as an explicit list of committed
  `PostRow`s that is threaded through the functions.
* `ingest` embeds the candidate loop of `fetch_and_store.main`
  (lines 116-152), instrumented with the list of sentiment-backend calls
  made and the rows committed.
* `processPage` embeds the per-item loop of
  `BlueSkyManager.get_posts` (src/src/bluesky_manager.py, lines 76-101),
  `gpLoop` its pagination loop, and `ndLoop` the pagination loop of
  `BlueSkyManager.get_posts_no_date_filter`.  The network is embedded as
  a script of responses consumed in request order.

Opaque third-party functionality (text cleaning, the sentiment pipeline,
`datetime.fromisoformat`, `dateutil.isoparse`) is passed in as function
parameters, so every theorem quantifies over the behaviour of those
backends.
-/

namespace SMSA

/-- A committed row of the `posts` table as used by `fetch_and_store.py`
(`Post(uri=..., text=..., sentiment=..., confidence=..., created_at=..., query=...)`).
Timestamps are embedded as `Option Int`; the confidence score, a Python
float never computed with, is embedded as `Option Int`. -/
structure PostRow where
  uri : String
  text : String
  sentiment : Option String
  confidence : Option Int
  created_at : Option Int
  query : String
deriving Repr, DecidableEq

/-- Embeds `DEFAULT_QUERY = "Macron"` from fetch_and_store.py. -/
def DEFAULT_QUERY : String := "Macron"

/-- Python truthiness of a string: `""` is falsy. -/
def truthyStr (s : String) : Bool := decide (s ≠ "")

/-- Python truthiness of `os.getenv` / `get_latest_db_query` results:
`None` and `""` are falsy. -/
def truthyOpt : Option String → Bool
  | none => false
  | some s => truthyStr s

/-- Order used by `order_by(Post.created_at.desc()).first()`: `a` comes
strictly before `b` in descending order.  A `NULL` timestamp is placed
first (PostgreSQL sorts NULLs first under DESC). -/
def createdLater (a b : Option Int) : Bool :=
  match a, b with
  | none, none => false
  | none, some _ => true
  | some _, none => false
  | some x, some y => decide (y < x)

/-- The first row of a list under `order_by(created_at.desc())`:
the row with maximal `created_at`, earliest such row on ties. -/
def pickLatest : List PostRow → Option PostRow
  | [] => none
  | r :: rs =>
    match pickLatest rs with
    | none => some r
    | some b => if createdLater b.created_at r.created_at then some b else some r

/-- Embeds `get_latest_db_query` (fetch_and_store.py lines 23-31):
the `query` of the most recent row with `uri == "query"`. -/
def getLatestDbQuery (db : List PostRow) : Option String :=
  (pickLatest (db.filter (fun r => r.uri == "query"))).map (fun r => r.query)

/-- Embeds `resolve_current_query` (fetch_and_store.py lines 34-72).
The session is the list of committed rows; the returned list is the
table contents after the function returns (case 4 runs
`session.query(Post).delete(); session.commit()`). -/
def resolveCurrentQuery (env : Option String) (db : List PostRow) :
    String × List PostRow :=
  let env_q := env
  let db_q := getLatestDbQuery db
  if !truthyOpt env_q && truthyOpt db_q then (db_q.getD "", db)
  else if !truthyOpt env_q && !truthyOpt db_q then (DEFAULT_QUERY, db)
  else if truthyOpt env_q && !truthyOpt db_q then (env_q.getD "", db)
  else if env_q ≠ db_q then (db_q.getD "", [])
  else (env_q.getD "", db)

/-- Embeds the read `{uri for (uri,) in session.query(Post.uri).all()}`
(fetch_and_store.py line 97). -/
def existingUris (db : List PostRow) : List String :=
  db.map (fun r => r.uri)

/-- The set of existing URIs that `main` reads right after
`resolve_current_query` returns (fetch_and_store.py lines 91-97). -/
def mainExistingUris (env : Option String) (db : List PostRow) : List String :=
  existingUris (resolveCurrentQuery env db).2

/-- Claim C1: when both the `CURRENT_QUERY` override and a stored query
marker exist (non-empty) and their values differ, `resolve_current_query`
returns the stored DB value as the active query and deletes all stored
`Post` rows, and this deletion is visible (committed) before `main`
reads the set of existing URIs used for deduplication, which is
therefore empty. -/
theorem resolve_disagreement_purges (e q : String) (db : List PostRow)
    (he : e ≠ "") (hq : getLatestDbQuery db = some q) (hq2 : q ≠ "")
    (hne : e ≠ q) :
    resolveCurrentQuery (some e) db = (q, []) ∧
      mainExistingUris (some e) db = [] := by
  have h1 : truthyOpt (some e) = true := by
    simp [truthyOpt, truthyStr, he]
  have h2 : truthyOpt (getLatestDbQuery db) = true := by
    simp [hq, truthyOpt, truthyStr, hq2]
  have hmain : resolveCurrentQuery (some e) db = (q, []) := by
    unfold resolveCurrentQuery
    rw [hq] at h2 ⊢
    simp [h1, h2, hne]
  exact ⟨hmain, by simp [mainExistingUris, hmain, existingUris]⟩

/-- Concrete instance of `resolve_disagreement_purges`: override `"B"`,
stored marker `"A"`. -/
theorem resolve_disagreement_purges_witness :
    resolveCurrentQuery (some ("B"))
        [⟨"query", "", none, none, some 5, "A"⟩] = ("A", []) ∧
      mainExistingUris (some ("B"))
        [⟨"query", "", none, none, some 5, "A"⟩] = [] :=
  resolve_disagreement_purges ("B") ("A")
    [⟨"query", "", none, none, some 5, "A"⟩]
    (by decide) (by decide) (by decide) (by decide)

/-- Claim C10: `resolve_current_query` mutates storage only in the
disagreement case.  If the environment override is unset, or no stored
query marker exists, or the two values are equal, the function performs
no delete and no insert: the entire `Post` table (marker rows included)
is returned exactly unchanged. -/
theorem resolve_frame_no_mutation (env : Option String) (db : List PostRow)
    (h : env = none ∨ getLatestDbQuery db = none ∨
      ∃ v, env = some v ∧ getLatestDbQuery db = some v) :
    (resolveCurrentQuery env db).2 = db := by
  unfold resolveCurrentQuery
  rcases h with h | h | ⟨v, hv1, hv2⟩
  · subst h
    cases hdb : getLatestDbQuery db with
    | none => simp [truthyOpt, truthyStr, hdb]
    | some v =>
      by_cases hv : v = "" <;> simp [truthyOpt, truthyStr, hdb, hv]
  · rw [h]
    cases env with
    | none => simp [truthyOpt]
    | some e =>
      by_cases he : e = "" <;> simp [truthyOpt, truthyStr, he]
  · subst hv1
    rw [hv2]
    by_cases hv : v = "" <;> simp [truthyOpt, truthyStr, hv]

/-- Concrete instance of `resolve_frame_no_mutation`: override and
marker both `"A"`; the table, marker row included, is unchanged. -/
theorem resolve_frame_no_mutation_witness :
    (resolveCurrentQuery (some ("A"))
      [⟨"query", "", none, none, some 5, "A"⟩,
       ⟨"at://p1", "hi", some ("POSITIVE"), some 9, some 4, "A"⟩]).2 =
      [⟨"query", "", none, none, some 5, "A"⟩,
       ⟨"at://p1", "hi", some ("POSITIVE"), some 9, some 4, "A"⟩] :=
  resolve_frame_no_mutation (some ("A")) _
    (Or.inr (Or.inr ⟨"A", rfl, by decide⟩))

/-- Counterexample to claim C6: with stored marker query `"A"` and an
equal override, `resolve_current_query` leaves the table exactly as it
was — in particular the marker row with the reserved URI `"query"` is
still present, so marker rows are NOT pruned as the claim states. -/
theorem resolve_unchanged_marker_not_pruned :
    (resolveCurrentQuery (some ("A"))
      [⟨"query", "", none, none, some 5, "A"⟩,
       ⟨"at://p9", "tx", some ("NEGATIVE"), some 7, some 4, "A"⟩]).2 =
      [⟨"query", "", none, none, some 5, "A"⟩,
       ⟨"at://p9", "tx", some ("NEGATIVE"), some 7, some 4, "A"⟩] ∧
    (⟨"query", "", none, none, some 5, "A"⟩ : PostRow) ∈
      (resolveCurrentQuery (some ("A"))
        [⟨"query", "", none, none, some 5, "A"⟩,
         ⟨"at://p9", "tx", some ("NEGATIVE"), some 7, some 4, "A"⟩]).2 := by
  constructor
  · decide
  · decide

/-- Claim C6 as amended: when the query is unchanged (a stored query
marker exists and the override is absent or equal to it), resolving
state deletes nothing at all — neither post rows nor marker rows are
removed; the table is returned exactly unchanged (marker rows are not
pruned). -/
theorem resolve_unchanged_no_delete (env : Option String)
    (db : List PostRow) (q : String)
    (hq : getLatestDbQuery db = some q)
    (henv : env = none ∨ env = some q) :
    (resolveCurrentQuery env db).2 = db := by
  unfold resolveCurrentQuery
  rw [hq]
  rcases henv with h | h
  · subst h
    by_cases hv : q = "" <;> simp [truthyOpt, truthyStr, hv]
  · subst h
    by_cases hv : q = "" <;> simp [truthyOpt, truthyStr, hv]

/-- Concrete instance of `resolve_unchanged_no_delete`: marker `"A"`,
override absent. -/
theorem resolve_unchanged_no_delete_witness :
    (resolveCurrentQuery none
      [⟨"query", "", none, none, some 3, "A"⟩,
       ⟨"at://p2", "yo", some ("POSITIVE"), some 8, some 2, "A"⟩]).2 =
      [⟨"query", "", none, none, some 3, "A"⟩,
       ⟨"at://p2", "yo", some ("POSITIVE"), some 8, some 2, "A"⟩] :=
  resolve_unchanged_no_delete none _ ("A") (by decide) (Or.inl rfl)

/-- One entry of the list returned by `SentimentAnalyzer.analyze_texts`
(src/src/sentiment_analyzer.py): `result[0].get("label")` and
`result[0].get("score")` are read with `.get`, hence `Option`s.  The
score, a Python float never computed with, is embedded as `Int`. -/
structure SResult where
  label : Option String
  score : Option Int
deriving Repr, DecidableEq

/-- A raw feed item as consumed by `fetch_and_store.main`
(`p.get("uri")`, `p.get("text", "")`, `p.get("createdAt")`). -/
structure RawPost where
  uri : Option String
  text : String
  createdAt : Option String
deriving Repr, DecidableEq

/-- Result of one ingest run (fetch_and_store.py lines 114-155): the
committed table, the `new_count` reported, and — as instrumentation for
the batching claims — the list of argument lists passed to
`analyzer.analyze_texts`. -/
structure IngestResult where
  db : List PostRow
  newCount : Nat
  calls : List (List String)
deriving Repr, DecidableEq

/-- Replacement of every non-overlapping occurrence of `pat` by `rep`,
left to right, over character lists; the fuel is an upper bound on the
input length, making the recursion structural (and so kernel-reducible
in witnesses). -/
def replaceFuel (pat rep : List Char) : Nat → List Char → List Char
  | 0, l => l
  | _, [] => []
  | fuel + 1, c :: cs =>
    if pat.isPrefixOf (c :: cs) then
      rep ++ replaceFuel pat rep fuel (List.drop (pat.length - 1) cs)
    else c :: replaceFuel pat rep fuel cs

/-- Python `str.replace`: replace every non-overlapping occurrence of
`pat` in `s` by `rep`, scanning left to right. -/
def pyReplace (s pat rep : String) : String :=
  ⟨replaceFuel pat.data rep.data s.data.length s.data⟩

/-- Python `str.strip()`: drop leading and trailing whitespace. -/
def pyStrip (s : String) : String :=
  ⟨(((s.data.dropWhile Char.isWhitespace).reverse).dropWhile
      Char.isWhitespace).reverse⟩

/-- Embeds fetch_and_store.py lines 129-137: `created_at = None`;
`if ts_str:` parse `ts_str.replace("Z", "+00:00")` with
`datetime.fromisoformat`, leaving `None` on `ValueError`.
`fromIso` is the opaque embedding of `datetime.fromisoformat`,
returning `none` where the Python function raises `ValueError`. -/
def tsParse (fromIso : String → Option Int) (createdAt : Option String) :
    Option Int :=
  match createdAt with
  | none => none
  | some s => if s = "" then none else fromIso (pyReplace s ("Z") ("+00:00"))

/-- The `Post(...)` row built at fetch_and_store.py lines 139-146 for a
candidate whose sentiment result is `res`. -/
def mkRow (clean : String → String) (fromIso : String → Option Int)
    (query : String) (p : RawPost) (u : String) (res : SResult) : PostRow :=
  { uri := u
    text := clean p.text
    sentiment := res.label
    confidence := res.score
    created_at := tsParse fromIso p.createdAt
    query := query }

/-- Modelled from the spec: the unique dedup-key constraint of the
`Post` table.  The SQLAlchemy `Post` class that fetch_and_store.py
imports (`from src.models import Post`, a model with a `uri` column) is
not among the provided sources — src/src/models/post.py shows the
analogous schema with a unique content-id column — and the spec states
"the dedup key is unique across all rows; a row with a duplicate key is
rejected, not overwritten".  `session.commit()` of one pending row
raises `IntegrityError` exactly when the row's `uri` collides with a
committed row; on success the row is appended. -/
def commitRow (db : List PostRow) (row : PostRow) : Option (List PostRow) :=
  if db.any (fun r => r.uri == row.uri) then none else some (db ++ [row])

/-- Embeds the candidate loop of `fetch_and_store.main`
(lines 116-152).  Per candidate `p`: skip when `p.get("uri")` is falsy
or already in `existing_uris`; clean the text; call
`analyze_texts([text])` (recorded in `calls`); skip when the result is
empty; otherwise build the row and commit it, rolling back (dropping
the row) on `IntegrityError`. -/
def ingestLoop (clean : String → String)
    (analyze : List String → List SResult) (fromIso : String → Option Int)
    (query : String) (existing : List String) :
    List RawPost → List PostRow → Nat → List (List String) → IngestResult
  | [], db, n, cs => ⟨db, n, cs⟩
  | p :: ps, db, n, cs =>
    match p.uri with
    | none => ingestLoop clean analyze fromIso query existing ps db n cs
    | some u =>
      if u = "" ∨ existing.contains u then
        ingestLoop clean analyze fromIso query existing ps db n cs
      else
        let t := clean p.text
        match analyze [t] with
        | [] => ingestLoop clean analyze fromIso query existing ps db n
            (cs ++ [[t]])
        | res :: _ =>
          match commitRow db (mkRow clean fromIso query p u res) with
          | none => ingestLoop clean analyze fromIso query existing ps db n
              (cs ++ [[t]])
          | some db2 => ingestLoop clean analyze fromIso query existing ps db2
              (n + 1) (cs ++ [[t]])

/-- The ingest run of `fetch_and_store.main` starting from a committed
table `db` and the preloaded existing-URI set `existing`. -/
def ingest (clean : String → String) (analyze : List String → List SResult)
    (fromIso : String → Option Int) (query : String)
    (existing : List String) (db : List PostRow) (posts : List RawPost) :
    IngestResult :=
  ingestLoop clean analyze fromIso query existing posts db 0 []

/-- The filter a candidate must pass to reach the sentiment call:
a present, non-empty URI that is not among the preloaded existing URIs
(fetch_and_store.py lines 117-119). -/
def survives (existing : List String) (p : RawPost) : Bool :=
  match p.uri with
  | none => false
  | some u => !(decide (u = "")) && !(existing.contains u)

/-- Unfolding lemma: a candidate with no URI is skipped. -/
theorem ingestLoop_step_nouri (clean : String → String)
    (analyze : List String → List SResult) (fromIso : String → Option Int)
    (query : String) (existing : List String) (p : RawPost)
    (ps : List RawPost) (db : List PostRow) (n : Nat)
    (cs : List (List String)) (hu : p.uri = none) :
    ingestLoop clean analyze fromIso query existing (p :: ps) db n cs =
      ingestLoop clean analyze fromIso query existing ps db n cs := by
  rw [ingestLoop, hu]

/-- Unfolding lemma: a candidate with an empty or already-seen URI is
skipped. -/
theorem ingestLoop_step_skip (clean : String → String)
    (analyze : List String → List SResult) (fromIso : String → Option Int)
    (query : String) (existing : List String) (p : RawPost) (u : String)
    (ps : List RawPost) (db : List PostRow) (n : Nat)
    (cs : List (List String)) (hu : p.uri = some u)
    (h : u = "" ∨ existing.contains u) :
    ingestLoop clean analyze fromIso query existing (p :: ps) db n cs =
      ingestLoop clean analyze fromIso query existing ps db n cs := by
  rw [ingestLoop, hu]
  simp only [h, if_true]

/-- Unfolding lemma: a surviving candidate whose sentiment call returns
no result is skipped after the call is recorded. -/
theorem ingestLoop_step_nores (clean : String → String)
    (analyze : List String → List SResult) (fromIso : String → Option Int)
    (query : String) (existing : List String) (p : RawPost) (u : String)
    (ps : List RawPost) (db : List PostRow) (n : Nat)
    (cs : List (List String)) (hu : p.uri = some u)
    (h : ¬(u = "" ∨ existing.contains u = true))
    (hres : analyze [clean p.text] = []) :
    ingestLoop clean analyze fromIso query existing (p :: ps) db n cs =
      ingestLoop clean analyze fromIso query existing ps db n
        (cs ++ [[clean p.text]]) := by
  rw [ingestLoop, hu]
  simp only [h, if_false, hres]

/-- Unfolding lemma: a surviving candidate with a sentiment result whose
commit raises `IntegrityError` is rolled back and processing continues. -/
theorem ingestLoop_step_dup (clean : String → String)
    (analyze : List String → List SResult) (fromIso : String → Option Int)
    (query : String) (existing : List String) (p : RawPost) (u : String)
    (res : SResult) (rest : List SResult)
    (ps : List RawPost) (db : List PostRow) (n : Nat)
    (cs : List (List String)) (hu : p.uri = some u)
    (h : ¬(u = "" ∨ existing.contains u = true))
    (hres : analyze [clean p.text] = res :: rest)
    (hc : commitRow db (mkRow clean fromIso query p u res) = none) :
    ingestLoop clean analyze fromIso query existing (p :: ps) db n cs =
      ingestLoop clean analyze fromIso query existing ps db n
        (cs ++ [[clean p.text]]) := by
  rw [ingestLoop, hu]
  simp only [h, if_false, hres, hc]

/-- Unfolding lemma: a surviving candidate with a sentiment result whose
commit succeeds appends its row and bumps the counter. -/
theorem ingestLoop_step_ins (clean : String → String)
    (analyze : List String → List SResult) (fromIso : String → Option Int)
    (query : String) (existing : List String) (p : RawPost) (u : String)
    (res : SResult) (rest : List SResult)
    (ps : List RawPost) (db db2 : List PostRow) (n : Nat)
    (cs : List (List String)) (hu : p.uri = some u)
    (h : ¬(u = "" ∨ existing.contains u = true))
    (hres : analyze [clean p.text] = res :: rest)
    (hc : commitRow db (mkRow clean fromIso query p u res) = some db2) :
    ingestLoop clean analyze fromIso query existing (p :: ps) db n cs =
      ingestLoop clean analyze fromIso query existing ps db2 (n + 1)
        (cs ++ [[clean p.text]]) := by
  rw [ingestLoop, hu]
  simp only [h, if_false, hres, hc]

/-- A successful commit appends exactly the committed row. -/
theorem commitRow_some (db db2 : List PostRow) (row : PostRow)
    (hc : commitRow db row = some db2) :
    db2 = db ++ [row] ∧ row.uri ∉ existingUris db := by
  unfold commitRow at hc
  by_cases hany : db.any (fun r => r.uri == row.uri)
  · simp [hany] at hc
  · simp only [hany, if_neg, Bool.false_eq_true, not_false_eq_true,
      if_false, Option.some.injEq] at hc
    refine ⟨hc.symm, ?_⟩
    intro hmem
    apply hany
    rw [List.any_eq_true]
    unfold existingUris at hmem
    obtain ⟨r, hr, hru⟩ := List.mem_map.mp hmem
    exact ⟨r, hr, by simp [hru]⟩

/-- A commit that raises `IntegrityError` does so because the key is
already committed. -/
theorem commitRow_none (db : List PostRow) (row : PostRow)
    (hc : commitRow db row = none) : row.uri ∈ existingUris db := by
  unfold commitRow at hc
  by_cases hany : db.any (fun r => r.uri == row.uri)
  · rw [List.any_eq_true] at hany
    obtain ⟨r, hr, hru⟩ := hany
    unfold existingUris
    rw [List.mem_map]
    exact ⟨r, hr, by simpa using hru⟩
  · simp [hany] at hc

/-- The ingest loop only appends rows: the final table is the starting
table followed by some extension. -/
theorem ingestLoop_db_append (clean : String → String)
    (analyze : List String → List SResult) (fromIso : String → Option Int)
    (query : String) (existing : List String) :
    ∀ (posts : List RawPost) (db : List PostRow) (n : Nat)
      (cs : List (List String)),
      ∃ ext, (ingestLoop clean analyze fromIso query existing
        posts db n cs).db = db ++ ext := by
  intro posts
  induction posts with
  | nil => intro db n cs; exact ⟨[], by simp [ingestLoop]⟩
  | cons p ps ih =>
    intro db n cs
    cases hu : p.uri with
    | none =>
      rw [ingestLoop_step_nouri clean analyze fromIso query existing
        p ps db n cs hu]
      exact ih db n cs
    | some u =>
      by_cases hskip : u = "" ∨ existing.contains u
      · rw [ingestLoop_step_skip clean analyze fromIso query existing
          p u ps db n cs hu hskip]
        exact ih db n cs
      · cases hres : analyze [clean p.text] with
        | nil =>
          rw [ingestLoop_step_nores clean analyze fromIso query existing
            p u ps db n cs hu hskip hres]
          exact ih db n (cs ++ [[clean p.text]])
        | cons res rest =>
          cases hc : commitRow db (mkRow clean fromIso query p u res) with
          | none =>
            rw [ingestLoop_step_dup clean analyze fromIso query existing
              p u res rest ps db n cs hu hskip hres hc]
            exact ih db n (cs ++ [[clean p.text]])
          | some db2 =>
            rw [ingestLoop_step_ins clean analyze fromIso query existing
              p u res rest ps db db2 n cs hu hskip hres hc]
            obtain ⟨ext, hext⟩ := ih db2 (n + 1) (cs ++ [[clean p.text]])
            obtain ⟨hdb2, -⟩ := commitRow_some db db2 _ hc
            exact ⟨[mkRow clean fromIso query p u res] ++ ext,
              by rw [hext, hdb2, List.append_assoc]⟩

/-- Membership in the table is preserved by the ingest loop. -/
theorem ingestLoop_mem_mono (clean : String → String)
    (analyze : List String → List SResult) (fromIso : String → Option Int)
    (query : String) (existing : List String)
    (posts : List RawPost) (db : List PostRow) (n : Nat)
    (cs : List (List String)) (u : String)
    (h : u ∈ existingUris db) :
    u ∈ existingUris (ingestLoop clean analyze fromIso query existing
      posts db n cs).db := by
  obtain ⟨ext, hext⟩ := ingestLoop_db_append clean analyze fromIso query
    existing posts db n cs
  rw [hext]
  unfold existingUris at h ⊢
  simp only [List.map_append, List.mem_append]
  exact Or.inl h

/-- A surviving candidate with a non-empty sentiment result leaves its
key in the committed table (either its own insert succeeded, or the key
was already committed when its commit failed), unless it was filtered by
the preloaded existing-URI set. -/
theorem ingestLoop_key_lands (clean : String → String)
    (analyze : List String → List SResult) (fromIso : String → Option Int)
    (query : String) (existing : List String) :
    ∀ (posts : List RawPost) (db : List PostRow) (n : Nat)
      (cs : List (List String)) (p : RawPost) (u : String),
      p ∈ posts → p.uri = some u → u ≠ "" →
      analyze [clean p.text] ≠ [] →
      u ∈ existingUris (ingestLoop clean analyze fromIso query existing
        posts db n cs).db ∨ existing.contains u = true := by
  intro posts
  induction posts with
  | nil => intro db n cs p u hmem; exact absurd hmem (List.not_mem_nil p)
  | cons q qs ih =>
    intro db n cs p u hmem hu hne hres
    rcases List.mem_cons.mp hmem with heq | hmem2
    · subst heq
      by_cases hskip : u = "" ∨ existing.contains u
      · rcases hskip with h | h
        · exact absurd h hne
        · exact Or.inr h
      · cases hresl : analyze [clean p.text] with
        | nil => exact absurd hresl hres
        | cons res rest =>
          cases hc : commitRow db (mkRow clean fromIso query p u res) with
          | none =>
            rw [ingestLoop_step_dup clean analyze fromIso query existing
              p u res rest qs db n cs hu hskip hresl hc]
            have := commitRow_none db (mkRow clean fromIso query p u res) hc
            exact Or.inl (ingestLoop_mem_mono clean analyze fromIso query
              existing qs db n (cs ++ [[clean p.text]]) u this)
          | some db2 =>
            rw [ingestLoop_step_ins clean analyze fromIso query existing
              p u res rest qs db db2 n cs hu hskip hresl hc]
            obtain ⟨hdb2, -⟩ := commitRow_some db db2 _ hc
            have hu2 : u ∈ existingUris db2 := by
              rw [hdb2]
              unfold existingUris
              simp [mkRow]
            exact Or.inl (ingestLoop_mem_mono clean analyze fromIso query
              existing qs db2 (n + 1) (cs ++ [[clean p.text]]) u hu2)
    · cases hqu : q.uri with
      | none =>
        rw [ingestLoop_step_nouri clean analyze fromIso query existing
          q qs db n cs hqu]
        exact ih db n cs p u hmem2 hu hne hres
      | some v =>
        by_cases hskip : v = "" ∨ existing.contains v
        · rw [ingestLoop_step_skip clean analyze fromIso query existing
            q v qs db n cs hqu hskip]
          exact ih db n cs p u hmem2 hu hne hres
        · cases hresl : analyze [clean q.text] with
          | nil =>
            rw [ingestLoop_step_nores clean analyze fromIso query existing
              q v qs db n cs hqu hskip hresl]
            exact ih db n _ p u hmem2 hu hne hres
          | cons res rest =>
            cases hc : commitRow db (mkRow clean fromIso query q v res) with
            | none =>
              rw [ingestLoop_step_dup clean analyze fromIso query existing
                q v res rest qs db n cs hqu hskip hresl hc]
              exact ih db n _ p u hmem2 hu hne hres
            | some db2 =>
              rw [ingestLoop_step_ins clean analyze fromIso query existing
                q v res rest qs db db2 n cs hqu hskip hresl hc]
              exact ih db2 (n + 1) _ p u hmem2 hu hne hres

/-- A run in which every candidate with a usable key is either already
in the preloaded existing-URI set or gets no sentiment result changes
neither the table nor the insert counter. -/
theorem ingestLoop_noop (clean : String → String)
    (analyze : List String → List SResult) (fromIso : String → Option Int)
    (query : String) (existing : List String) :
    ∀ (posts : List RawPost) (db : List PostRow) (n : Nat)
      (cs : List (List String)),
      (∀ p ∈ posts, ∀ u, p.uri = some u → u ≠ "" →
        existing.contains u = true ∨ analyze [clean p.text] = []) →
      (ingestLoop clean analyze fromIso query existing posts db n cs).db
          = db ∧
        (ingestLoop clean analyze fromIso query existing
          posts db n cs).newCount = n := by
  intro posts
  induction posts with
  | nil => intro db n cs _; exact ⟨by rw [ingestLoop], by rw [ingestLoop]⟩
  | cons q qs ih =>
    intro db n cs hall
    have hqs : ∀ p ∈ qs, ∀ u, p.uri = some u → u ≠ "" →
        existing.contains u = true ∨ analyze [clean p.text] = [] :=
      fun p hp => hall p (List.mem_cons_of_mem q hp)
    cases hqu : q.uri with
    | none =>
      rw [ingestLoop_step_nouri clean analyze fromIso query existing
        q qs db n cs hqu]
      exact ih db n cs hqs
    | some v =>
      by_cases hv : v = ""
      · rw [ingestLoop_step_skip clean analyze fromIso query existing
          q v qs db n cs hqu (Or.inl hv)]
        exact ih db n cs hqs
      · rcases hall q (List.mem_cons_self q qs) v hqu hv with h | h
        · rw [ingestLoop_step_skip clean analyze fromIso query existing
            q v qs db n cs hqu (Or.inr h)]
          exact ih db n cs hqs
        · by_cases hcont : existing.contains v
          · rw [ingestLoop_step_skip clean analyze fromIso query existing
              q v qs db n cs hqu (Or.inr hcont)]
            exact ih db n cs hqs
          · rw [ingestLoop_step_nores clean analyze fromIso query existing
              q v qs db n cs hqu (by push_neg; exact ⟨hv, by simpa using hcont⟩) h]
            exact ih db n _ hqs

/-- Every insert preserves uniqueness of the dedup key: if the committed
table's URIs are pairwise distinct before the run, they still are after
it. -/
theorem ingestLoop_nodup (clean : String → String)
    (analyze : List String → List SResult) (fromIso : String → Option Int)
    (query : String) (existing : List String) :
    ∀ (posts : List RawPost) (db : List PostRow) (n : Nat)
      (cs : List (List String)),
      (existingUris db).Nodup →
      (existingUris (ingestLoop clean analyze fromIso query existing
        posts db n cs).db).Nodup := by
  intro posts
  induction posts with
  | nil => intro db n cs h; rw [ingestLoop]; exact h
  | cons q qs ih =>
    intro db n cs hnd
    cases hqu : q.uri with
    | none =>
      rw [ingestLoop_step_nouri clean analyze fromIso query existing
        q qs db n cs hqu]
      exact ih db n cs hnd
    | some v =>
      by_cases hskip : v = "" ∨ existing.contains v
      · rw [ingestLoop_step_skip clean analyze fromIso query existing
          q v qs db n cs hqu hskip]
        exact ih db n cs hnd
      · cases hresl : analyze [clean q.text] with
        | nil =>
          rw [ingestLoop_step_nores clean analyze fromIso query existing
            q v qs db n cs hqu hskip hresl]
          exact ih db n _ hnd
        | cons res rest =>
          cases hc : commitRow db (mkRow clean fromIso query q v res) with
          | none =>
            rw [ingestLoop_step_dup clean analyze fromIso query existing
              q v res rest qs db n cs hqu hskip hresl hc]
            exact ih db n _ hnd
          | some db2 =>
            rw [ingestLoop_step_ins clean analyze fromIso query existing
              q v res rest qs db db2 n cs hqu hskip hresl hc]
            obtain ⟨hdb2, hnotin⟩ := commitRow_some db db2 _ hc
            apply ih
            rw [hdb2]
            unfold existingUris at hnd hnotin ⊢
            rw [List.map_append]
            rw [List.nodup_append]
            refine ⟨hnd, by simp, ?_⟩
            intro a ha hb
            simp only [List.map_cons, List.map_nil, List.mem_singleton] at hb
            subst hb
            exact hnotin ha

/-- Claim C2: if a single run's candidate list contains two posts with
identical dedup keys, the ingest loop commits exactly one row for that
key — the duplicate commit's `IntegrityError` is caught and rolled back
and processing continues — and every insert preserves the invariant
that the dedup key is unique across all stored rows.  Stated generally:
uniqueness of the committed URIs is preserved, and any key carried by
at least one candidate that passes the filters and gets a sentiment
result ends up on exactly one committed row, however many candidates
carry it. -/
theorem ingest_dedup_unique (clean : String → String)
    (analyze : List String → List SResult) (fromIso : String → Option Int)
    (query : String) (existing : List String) (db : List PostRow)
    (posts : List RawPost) (hnd : (existingUris db).Nodup) :
    (existingUris
        (ingest clean analyze fromIso query existing db posts).db).Nodup ∧
      ∀ u, (∃ p, p ∈ posts ∧ p.uri = some u ∧ u ≠ "" ∧
          existing.contains u = false ∧ analyze [clean p.text] ≠ []) →
        (existingUris
          (ingest clean analyze fromIso query existing db posts).db).count u
            = 1 := by
  have hnd2 := ingestLoop_nodup clean analyze fromIso query existing
    posts db 0 [] hnd
  refine ⟨hnd2, ?_⟩
  rintro u ⟨p, hmem, hu, hne, hcont, hres⟩
  have hland := ingestLoop_key_lands clean analyze fromIso query existing
    posts db 0 [] p u hmem hu hne hres
  rcases hland with h | h
  · exact List.count_eq_one_of_mem hnd2 h
  · rw [hcont] at h
    exact absurd h (by simp)

/-- Example cleaner for concrete runs: the identity function stands in
for `TextCleaner.clean_text`, whose internals no claim depends on. -/
def exClean : String → String := fun s => s

/-- Example sentiment backend that returns one result for every batch. -/
def exAnalyzeOk : List String → List SResult :=
  fun _ => [⟨some ("POSITIVE"), some 1⟩]

/-- Example embedding of `datetime.fromisoformat`: parses exactly one
fixed timestamp string, failing (raising `ValueError`) on everything
else. -/
def exIso : String → Option Int :=
  fun s => if s = "2025-01-01T00:00:00+00:00" then some 0 else none

/-- Concrete instance of `ingest_dedup_unique`: two candidates with the
dedup key `"u1"` and one with `"u2"` in one run yield exactly one
committed row with key `"u1"`. -/
theorem ingest_dedup_unique_witness :
    (existingUris (ingest exClean exAnalyzeOk exIso ("q") [] []
      [⟨some ("u1"), "hello", none⟩, ⟨some ("u1"), "again", none⟩,
       ⟨some ("u2"), "bye", none⟩]).db).count ("u1") = 1 :=
  (ingest_dedup_unique exClean exAnalyzeOk exIso ("q") [] []
    [⟨some ("u1"), "hello", none⟩, ⟨some ("u1"), "again", none⟩,
     ⟨some ("u2"), "bye", none⟩] (by decide)).2 ("u1")
    ⟨⟨some ("u1"), "hello", none⟩, by decide, rfl, by decide, by decide,
      by decide⟩

/-- Claim C3: running the ingest over the same feed response twice
inserts the candidate set only once.  The second run — whose preloaded
existing-key set is read from the table the first run left behind —
inserts 0 new rows and leaves the stored table unchanged, for every
(deterministic) cleaner and sentiment backend. -/
theorem ingest_idempotent (clean : String → String)
    (analyze : List String → List SResult) (fromIso : String → Option Int)
    (query : String) (db : List PostRow) (posts : List RawPost) :
    (ingest clean analyze fromIso query
        (existingUris (ingest clean analyze fromIso query
          (existingUris db) db posts).db)
        (ingest clean analyze fromIso query
          (existingUris db) db posts).db posts).db =
      (ingest clean analyze fromIso query
        (existingUris db) db posts).db ∧
      (ingest clean analyze fromIso query
        (existingUris (ingest clean analyze fromIso query
          (existingUris db) db posts).db)
        (ingest clean analyze fromIso query
          (existingUris db) db posts).db posts).newCount = 0 := by
  apply ingestLoop_noop
  intro p hp u hu hne
  by_cases hres : analyze [clean p.text] = []
  · exact Or.inr hres
  · left
    by_cases hcont : (existingUris db).contains u
    · have hmem : u ∈ existingUris db := by simpa using hcont
      have := ingestLoop_mem_mono clean analyze fromIso query
        (existingUris db) posts db 0 [] u hmem
      simpa using this
    · have hland := ingestLoop_key_lands clean analyze fromIso query
        (existingUris db) posts db 0 [] p u hp hu hne hres
      rcases hland with h | h
      · simpa using h
      · exact absurd h (by simpa using hcont)

/-- The sentiment backend is called once per candidate that passes the
URI filters, each time with the singleton batch holding that
candidate's cleaned text. -/
theorem ingestLoop_calls (clean : String → String)
    (analyze : List String → List SResult) (fromIso : String → Option Int)
    (query : String) (existing : List String) :
    ∀ (posts : List RawPost) (db : List PostRow) (n : Nat)
      (cs : List (List String)),
      (ingestLoop clean analyze fromIso query existing
          posts db n cs).calls =
        cs ++ (posts.filter (survives existing)).map
          (fun p => [clean p.text]) := by
  intro posts
  induction posts with
  | nil => intro db n cs; rw [ingestLoop]; simp
  | cons q qs ih =>
    intro db n cs
    cases hqu : q.uri with
    | none =>
      rw [ingestLoop_step_nouri clean analyze fromIso query existing
        q qs db n cs hqu]
      rw [ih db n cs]
      have hs : survives existing q = false := by simp [survives, hqu]
      simp [hs]
    | some v =>
      by_cases hskip : v = "" ∨ existing.contains v
      · rw [ingestLoop_step_skip clean analyze fromIso query existing
          q v qs db n cs hqu hskip]
        rw [ih db n cs]
        have hs : survives existing q = false := by
          rcases hskip with h | h
          · simp [survives, hqu, h]
          · have hmem : v ∈ existing := by simpa using h
            simp [survives, hqu, hmem]
        simp [hs]
      · have hs : survives existing q = true := by
          push_neg at hskip
          have hnotmem : v ∉ existing := by
            intro hm
            exact hskip.2 (by simpa using hm)
          simp [survives, hqu, hskip.1, hnotmem]
        cases hresl : analyze [clean q.text] with
        | nil =>
          rw [ingestLoop_step_nores clean analyze fromIso query existing
            q v qs db n cs hqu hskip hresl]
          rw [ih db n (cs ++ [[clean q.text]])]
          simp [hs]
        | cons res rest =>
          cases hc : commitRow db (mkRow clean fromIso query q v res) with
          | none =>
            rw [ingestLoop_step_dup clean analyze fromIso query existing
              q v res rest qs db n cs hqu hskip hresl hc]
            rw [ih db n (cs ++ [[clean q.text]])]
            simp [hs]
          | some db2 =>
            rw [ingestLoop_step_ins clean analyze fromIso query existing
              q v res rest qs db db2 n cs hqu hskip hresl hc]
            rw [ih db2 (n + 1) (cs ++ [[clean q.text]])]
            simp [hs]

/-- Counterexample to claim C8: with three surviving candidates (texts
`"a"`, `"b"`, `"c"`, identity cleaner), `main`'s loop makes three
sentiment-backend calls, each over a singleton list — not one batched
call over all three cleaned texts as the claim states. -/
theorem sentiment_calls_per_candidate :
    (ingest exClean exAnalyzeOk exIso ("q") [] []
      [⟨some ("u1"), "a", none⟩, ⟨some ("u2"), "b", none⟩,
       ⟨some ("u3"), "c", none⟩]).calls = [["a"], ["b"], ["c"]] ∧
    (ingest exClean exAnalyzeOk exIso ("q") [] []
      [⟨some ("u1"), "a", none⟩, ⟨some ("u2"), "b", none⟩,
       ⟨some ("u3"), "c", none⟩]).calls ≠ [["a", "b", "c"]] ∧
    (ingest exClean exAnalyzeOk exIso ("q") [] []
      [⟨some ("u1"), "a", none⟩, ⟨some ("u2"), "b", none⟩,
       ⟨some ("u3"), "c", none⟩]).calls.length = 3 := by
  refine ⟨by decide, by decide, by decide⟩

/-- Claim C8 as amended: sentiment scoring is performed once per
surviving candidate, each call over the singleton list holding that
candidate's cleaned text (not one batched call over all candidates); a
candidate whose own call returns an empty result is skipped with a
logged warning while the remaining candidates are still processed, and
no exception is raised — e.g. three surviving candidates of which the
second gets an empty result yield three singleton calls, exactly 2 rows
committed and 1 candidate skipped. -/
theorem ingest_sentiment_per_item (clean : String → String)
    (analyze : List String → List SResult) (fromIso : String → Option Int)
    (query : String) (p1 p2 p3 : RawPost) (u1 u2 u3 : String)
    (a1 a3 : SResult)
    (h1 : p1.uri = some u1) (h2 : p2.uri = some u2)
    (h3 : p3.uri = some u3)
    (hne1 : u1 ≠ "") (hne2 : u2 ≠ "") (hne3 : u3 ≠ "")
    (hd13 : u1 ≠ u3)
    (ha1 : analyze [clean p1.text] = [a1])
    (ha2 : analyze [clean p2.text] = [])
    (ha3 : analyze [clean p3.text] = [a3]) :
    (ingest clean analyze fromIso query [] [] [p1, p2, p3]).calls =
        [[clean p1.text], [clean p2.text], [clean p3.text]] ∧
      (ingest clean analyze fromIso query [] [] [p1, p2, p3]).newCount
        = 2 := by
  have hs1 : ¬(u1 = "" ∨ ([] : List String).contains u1 = true) := by
    simp [hne1]
  have hs2 : ¬(u2 = "" ∨ ([] : List String).contains u2 = true) := by
    simp [hne2]
  have hs3 : ¬(u3 = "" ∨ ([] : List String).contains u3 = true) := by
    simp [hne3]
  have hc1 : commitRow [] (mkRow clean fromIso query p1 u1 a1) =
      some [mkRow clean fromIso query p1 u1 a1] := by
    simp [commitRow]
  have hc3 : commitRow [mkRow clean fromIso query p1 u1 a1]
      (mkRow clean fromIso query p3 u3 a3) =
      some [mkRow clean fromIso query p1 u1 a1,
        mkRow clean fromIso query p3 u3 a3] := by
    simp [commitRow, mkRow, hd13]
  unfold ingest
  rw [ingestLoop_step_ins clean analyze fromIso query [] p1 u1 a1 []
    [p2, p3] [] _ 0 [] h1 hs1 ha1 hc1]
  rw [ingestLoop_step_nores clean analyze fromIso query [] p2 u2
    [p3] _ 1 _ h2 hs2 ha2]
  rw [ingestLoop_step_ins clean analyze fromIso query [] p3 u3 a3 []
    [] _ _ 1 _ h3 hs3 ha3 hc3]
  rw [ingestLoop]
  exact ⟨by simp, rfl⟩

/-- Example sentiment backend that returns an empty result exactly for
the batch `["b"]` and one result for every other batch. -/
def exAnalyzeSkipB : List String → List SResult :=
  fun ts => if ts = [("b")] then [] else [⟨some ("NEGATIVE"), some 0⟩]

/-- Concrete instance of `ingest_sentiment_per_item`: candidates with
texts `"a"`, `"b"`, `"c"` where the backend returns nothing for `"b"`:
three singleton calls, two committed rows. -/
theorem ingest_sentiment_per_item_witness :
    (ingest exClean exAnalyzeSkipB exIso ("q") [] []
      [⟨some ("u1"), "a", none⟩, ⟨some ("u2"), "b", none⟩,
       ⟨some ("u3"), "c", none⟩]).calls = [["a"], ["b"], ["c"]] ∧
      (ingest exClean exAnalyzeSkipB exIso ("q") [] []
        [⟨some ("u1"), "a", none⟩, ⟨some ("u2"), "b", none⟩,
         ⟨some ("u3"), "c", none⟩]).newCount = 2 :=
  ingest_sentiment_per_item exClean exAnalyzeSkipB exIso ("q")
    ⟨some ("u1"), "a", none⟩ ⟨some ("u2"), "b", none⟩
    ⟨some ("u3"), "c", none⟩ ("u1") ("u2") ("u3")
    ⟨some ("NEGATIVE"), some 0⟩ ⟨some ("NEGATIVE"), some 0⟩
    rfl rfl rfl (by decide) (by decide) (by decide) (by decide)
    (by decide) (by decide) (by decide)

/-- Claim C9: the creation timestamp of an inserted row is obtained by
parsing the item's ISO-8601 string after replacing `"Z"` by `"+00:00"`
(so a trailing `"Z"` is accepted as the UTC offset); whatever that parse
yields — in particular `none` when `datetime.fromisoformat` raises — the
item is still inserted, with a null timestamp rather than being
dropped. -/
theorem ingest_timestamp_parse (clean : String → String)
    (analyze : List String → List SResult) (fromIso : String → Option Int)
    (query : String) (existing : List String) (db : List PostRow)
    (p : RawPost) (u s : String) (a : SResult) (rest : List SResult)
    (hu : p.uri = some u) (hne : u ≠ "")
    (hcont : existing.contains u = false)
    (hfresh : u ∉ existingUris db)
    (hts : p.createdAt = some s) (hs : s ≠ "")
    (ha : analyze [clean p.text] = a :: rest) :
    (ingest clean analyze fromIso query existing db [p]).db =
        db ++ [{ uri := u, text := clean p.text, sentiment := a.label,
                 confidence := a.score,
                 created_at := fromIso (pyReplace s ("Z") ("+00:00")),
                 query := query }] ∧
      (ingest clean analyze fromIso query existing db [p]).newCount
        = 1 := by
  have hnm : u ∉ existing := by simpa using hcont
  have hsk : ¬(u = "" ∨ existing.contains u = true) := by
    simp [hne, hnm]
  have hany : db.any
      (fun r => r.uri == (mkRow clean fromIso query p u a).uri) = false := by
    rw [List.any_eq_false]
    intro r hr
    simp only [mkRow]
    intro hru
    have hru2 : r.uri = u := by simpa using hru
    exact hfresh (by
      unfold existingUris
      rw [List.mem_map]
      exact ⟨r, hr, hru2⟩)
  have hc : commitRow db (mkRow clean fromIso query p u a) =
      some (db ++ [mkRow clean fromIso query p u a]) := by
    unfold commitRow
    rw [hany]
    simp
  unfold ingest
  rw [ingestLoop_step_ins clean analyze fromIso query existing p u a rest
    [] db _ 0 [] hu hsk ha hc]
  rw [ingestLoop]
  refine ⟨?_, rfl⟩
  simp only [mkRow, tsParse, hts]
  rw [if_neg hs]

/-- Concrete instance of `ingest_timestamp_parse`: the timestamp string
`"bad-Z"` fails to parse after the `Z` replacement, and the item is
inserted anyway with a null `created_at`. -/
theorem ingest_timestamp_parse_witness :
    (ingest exClean exAnalyzeOk exIso ("q") [] []
        [⟨some ("u9"), "tx", some ("bad-Z")⟩]).db =
      [⟨"u9", "tx", some ("POSITIVE"), some 1, none, "q"⟩] ∧
      (ingest exClean exAnalyzeOk exIso ("q") [] []
        [⟨some ("u9"), "tx", some ("bad-Z")⟩]).newCount = 1 := by
  have h := ingest_timestamp_parse exClean exAnalyzeOk exIso ("q") [] []
    ⟨some ("u9"), "tx", some ("bad-Z")⟩ ("u9") ("bad-Z")
    ⟨some ("POSITIVE"), some 1⟩ []
    rfl (by decide) (by decide) (by decide) rfl (by decide) rfl
  have hiso : exIso (pyReplace ("bad-Z") ("Z") ("+00:00")) = none := by
    decide
  rw [hiso] at h
  simpa using h

/-- The `record` object of a raw feed item as read by
`BlueSkyManager.get_posts` (`rec["langs"]`, `rec.get("createdAt")`,
`rec.get("cleaned_text")`, `rec.get("text", "")`). -/
structure FeedRec where
  langs : Option (List String)
  createdAt : Option String
  cleaned_text : Option String
  text : String
deriving Repr, DecidableEq

/-- A raw feed item: `item.get("uri")` and `item.get("record", {})`
(`none` embeds a missing record). -/
structure FeedItem where
  uri : Option String
  record : Option FeedRec
deriving Repr, DecidableEq

/-- The dict appended to `all_posts` by both fetch loops of
src/src/bluesky_manager.py. -/
structure CollectedPost where
  uri : Option String
  text : String
  createdAt : String
deriving Repr, DecidableEq

/-- The empty dict `{}` used as the default for a missing `record`. -/
def emptyRec : FeedRec := ⟨none, none, none, ""⟩

/-- Embeds `rec.get("cleaned_text") or rec.get("text", "")`
(src/src/bluesky_manager.py line 91): Python `or` falls through on a
missing or empty `cleaned_text`. -/
def pickText (r : FeedRec) : String :=
  match r.cleaned_text with
  | some s => if s = "" then r.text else s
  | none => r.text

/-- Embeds the body of the per-item loop of `BlueSkyManager.get_posts`
(src/src/bluesky_manager.py lines 76-101) for one item with record `r`:
each `continue` of the Python loop is a `none` here, and a kept item
yields the appended dict.  `dateOf` is the opaque embedding of
`isoparse(s).astimezone(timezone.utc).date()` as a day number. -/
def itemKeepRec (dateOf : String → Int) (target : Int)
    (uri : Option String) (r : FeedRec) : Option CollectedPost :=
  if (match r.langs with
      | some ls => !(ls.contains ("en"))
      | none => false) then none
  else match r.createdAt with
    | none => none
    | some s =>
      if s = "" then none
      else if dateOf s ≠ target then none
      else if pyStrip (pickText r) = "" then none
      else some ⟨uri, pickText r, s⟩

/-- The per-item filter applied to a whole raw item
(`rec = item.get("record", {})`). -/
def itemKeep (dateOf : String → Int) (target : Int) (i : FeedItem) :
    Option CollectedPost :=
  itemKeepRec dateOf target i.uri (i.record.getD emptyRec)

/-- The per-item loop of `get_posts` over one page, in order. -/
def processPage (dateOf : String → Int) (target : Int) :
    List FeedItem → List CollectedPost
  | [] => []
  | i :: is =>
    match itemKeep dateOf target i with
    | none => processPage dateOf target is
    | some c => c :: processPage dateOf target is

/-- The collected form of an item that passes every filter of
`get_posts`. -/
def asCollected (i : FeedItem) : CollectedPost :=
  ⟨i.uri, pickText (i.record.getD emptyRec),
    (i.record.getD emptyRec).createdAt.getD ""⟩

/-- The per-item loop of `get_posts_no_date_filter`
(src/src/bluesky_manager.py lines 232-248): an item with a missing
record is skipped with a warning; every other item is appended with
`createdAt or ""`. -/
def ndCollectList : List FeedItem → List CollectedPost
  | [] => []
  | i :: is =>
    match i.record with
    | none => ndCollectList is
    | some r => ⟨i.uri, r.text, r.createdAt.getD ""⟩ :: ndCollectList is

/-- The response to the login POST: `ok = false` embeds a response on
which `raise_for_status()` raises. -/
structure LoginResp where
  ok : Bool
  token : String
deriving Repr, DecidableEq

/-- One page GET's result as the scripted network returns it:
`status`, whether `"ExpiredToken" in resp.text`, the decoded
`data.get("posts", [])` and `data.get("cursor")`. -/
structure GetResp where
  status : Nat
  expiredText : Bool
  posts : List FeedItem
  cursor : Option String
deriving Repr, DecidableEq

/-- Outcome of one `requests.get` call: `fail` embeds a raised
`requests.exceptions.RequestException` (timeout, connection error). -/
inductive GetOutcome where
  | fail
  | resp (r : GetResp)
deriving Repr, DecidableEq

/-- Errors escaping the embedded fetch functions: `valueErr` is the
`ValueError` for missing credentials, `reqErr` a propagated
`requests` exception (`raise_for_status` included), `exhausted` a
modelling artifact for a response script shorter than the run. -/
inductive FetchErr where
  | valueErr
  | reqErr
  | exhausted
deriving Repr, DecidableEq

/-- Failure modes of `BlueSkyManager.login`. -/
inductive LoginErr where
  | missingCreds
  | reqFail
deriving Repr, DecidableEq

/-- Embeds `BlueSkyManager.login` (src/src/bluesky_manager.py lines
22-34): if an access token is already held the call returns
immediately WITHOUT contacting the server (so a later "re-login" does
not refresh an expired token); otherwise missing credentials raise
`ValueError`, and the login POST consumes one scripted response. -/
def doLogin (creds : Bool) (token : Option String)
    (logins : List LoginResp) :
    Except LoginErr (Option String × List LoginResp) :=
  match token with
  | some t => .ok (some t, logins)
  | none =>
    if !creds then .error .missingCreds
    else match logins with
      | [] => .error .reqFail
      | l :: ls => if l.ok then .ok (some l.token, ls) else .error .reqFail

/-- Outcome of one page slot of `get_posts_no_date_filter`: either the
loop ends with a result, or it continues with updated retry flag,
login-script, token, accumulator and remaining responses. -/
inductive NdOut where
  | halt (res : Except FetchErr (List CollectedPost))
  | cont (retry : Bool) (logins : List LoginResp) (token : Option String)
      (acc : List CollectedPost) (gs : List GetOutcome)
deriving Repr

/-- The tail of one `get_posts_no_date_filter` page slot after a usable
response `r` was obtained (src/src/bluesky_manager.py lines 210-255):
`raise_for_status` (its `HTTPError` caught by the `except`, breaking
with the accumulated posts), the empty-page check, collection, and the
cursor check (`if not cursor: break`, with Python falsiness). -/
def ndProcess (retry : Bool) (logins : List LoginResp)
    (token : Option String) (acc : List CollectedPost) (r : GetResp)
    (gs : List GetOutcome) : NdOut :=
  if 400 ≤ r.status then .halt (.ok acc)
  else if r.posts.isEmpty then
    if truthyOpt r.cursor then .cont retry logins token acc gs
    else .halt (.ok acc)
  else
    if truthyOpt r.cursor then
      .cont retry logins token (acc ++ ndCollectList r.posts) gs
    else .halt (.ok (acc ++ ndCollectList r.posts))

/-- One page slot of `get_posts_no_date_filter` (lines 177-209): the
GET (a raised request exception breaks with the accumulated posts), the
once-per-call token-expiry retry (401 with `"ExpiredToken"`, guarded by
the `retry` flag that is never reset), whose "re-login" calls `login`
— a no-op when a token is held — and immediately re-requests. -/
def ndIter (creds retry : Bool) (logins : List LoginResp)
    (token : Option String) (acc : List CollectedPost) :
    List GetOutcome → NdOut
  | [] => .halt (.error .exhausted)
  | .fail :: _ => .halt (.ok acc)
  | .resp r :: gs =>
    if r.status == 401 && r.expiredText && !retry then
      match doLogin creds token logins with
      | .error .missingCreds => .halt (.error .valueErr)
      | .error .reqFail => .halt (.ok acc)
      | .ok (token2, logins2) =>
        match gs with
        | [] => .halt (.error .exhausted)
        | .fail :: _ => .halt (.ok acc)
        | .resp r2 :: gs2 => ndProcess true logins2 token2 acc r2 gs2
    else ndProcess retry logins token acc r gs

/-- The `for page_num in range(max_pages)` loop of
`get_posts_no_date_filter`: at most `maxPages` page slots, each one an
`ndIter`; falling off the loop returns the accumulated posts. -/
def ndLoop (creds : Bool) :
    Bool → List LoginResp → Option String → List CollectedPost →
    List GetOutcome → Nat → Except FetchErr (List CollectedPost)
  | _, _, _, acc, _, 0 => .ok acc
  | retry, logins, token, acc, gets, n + 1 =>
    match ndIter creds retry logins token acc gets with
    | .halt res => res
    | .cont retry2 logins2 token2 acc2 gs2 =>
      ndLoop creds retry2 logins2 token2 acc2 gs2 n

/-- Embeds `BlueSkyManager.get_posts_no_date_filter` itself: the
pre-loop login (lines 159-165), then the pagination loop. -/
def getPostsNoDateFilter (creds : Bool) (token : Option String)
    (logins : List LoginResp) (gets : List GetOutcome) (maxPages : Nat) :
    Except FetchErr (List CollectedPost) :=
  match token with
  | some _ => ndLoop creds false logins token [] gets maxPages
  | none =>
    match doLogin creds none logins with
    | .error .missingCreds => .error .valueErr
    | .error .reqFail => .error .reqErr
    | .ok (token2, logins2) => ndLoop creds false logins2 token2 [] gets maxPages

/-- Outcome of one iteration of `get_posts`' `while True` loop. -/
inductive GpOut where
  | halt (res : Except FetchErr (List CollectedPost))
  | cont (logins : List LoginResp) (token : Option String)
      (acc : List CollectedPost) (gs : List GetOutcome)
deriving Repr

/-- The tail of one `get_posts` iteration after a usable response `r`
was obtained (src/src/bluesky_manager.py lines 69-105): the UNGUARDED
`raise_for_status` (a 4xx/5xx propagates, discarding the accumulated
posts), the empty-page break, the per-item filter, and the cursor
check. -/
def gpProcess (dateOf : String → Int) (target : Int)
    (logins : List LoginResp) (token : Option String)
    (acc : List CollectedPost) (r : GetResp) (gs : List GetOutcome) :
    GpOut :=
  if 400 ≤ r.status then .halt (.error .reqErr)
  else if r.posts.isEmpty then .halt (.ok acc)
  else
    if truthyOpt r.cursor then
      .cont logins token (acc ++ processPage dateOf target r.posts) gs
    else .halt (.ok (acc ++ processPage dateOf target r.posts))

/-- One iteration of `get_posts`' `while True` loop (lines 52-68): the
GET — with no try/except, a raised request exception propagates — and
the 403 path: `login()` (a no-op when a token is held) followed by one
immediate re-request. -/
def gpIter (creds : Bool) (dateOf : String → Int) (target : Int)
    (logins : List LoginResp) (token : Option String)
    (acc : List CollectedPost) : List GetOutcome → GpOut
  | [] => .halt (.error .exhausted)
  | .fail :: _ => .halt (.error .reqErr)
  | .resp r :: gs =>
    if r.status == 403 then
      match doLogin creds token logins with
      | .error .missingCreds => .halt (.error .valueErr)
      | .error .reqFail => .halt (.error .reqErr)
      | .ok (token2, logins2) =>
        match gs with
        | [] => .halt (.error .exhausted)
        | .fail :: _ => .halt (.error .reqErr)
        | .resp r2 :: gs2 => gpProcess dateOf target logins2 token2 acc r2 gs2
    else gpProcess dateOf target logins token acc r gs

/-- The `while True` loop of `get_posts`, driven by a fuel bound: every
iteration consumes at least one scripted response, so any fuel above
the script length is equivalent to the unbounded loop. -/
def gpFuel (creds : Bool) (dateOf : String → Int) (target : Int) :
    List LoginResp → Option String → List CollectedPost →
    List GetOutcome → Nat → Except FetchErr (List CollectedPost)
  | _, _, _, _, 0 => .error .exhausted
  | logins, token, acc, gets, n + 1 =>
    match gpIter creds dateOf target logins token acc gets with
    | .halt res => res
    | .cont logins2 token2 acc2 gs2 =>
      gpFuel creds dateOf target logins2 token2 acc2 gs2 n

/-- Embeds `BlueSkyManager.get_posts` for a given scripted network. -/
def getPosts (creds : Bool) (dateOf : String → Int) (target : Int)
    (token : Option String) (logins : List LoginResp)
    (gets : List GetOutcome) : Except FetchErr (List CollectedPost) :=
  gpFuel creds dateOf target logins token [] gets (gets.length + 1)

/-- Example embedding of `isoparse(...).date()` for concrete pages:
the string `"early"` denotes a day before the target day `1`, every
other string the target day itself. -/
def exDateOf : String → Int := fun s => if s = "early" then 0 else 1

/-- A feed item with the given URI and creation-date string, English by
omission of `langs`, text `"hello"`. -/
def mkFI (u d : String) : FeedItem :=
  ⟨some u, some ⟨none, some d, none, "hello"⟩⟩

/-- The ten-item page of the claim's scenario: item 5 predates the
target date, all other items are on the target date. -/
def exPage : List FeedItem :=
  [mkFI ("u1") ("day"), mkFI ("u2") ("day"), mkFI ("u3") ("day"),
   mkFI ("u4") ("day"), mkFI ("u5") ("early"), mkFI ("u6") ("day"),
   mkFI ("u7") ("day"), mkFI ("u8") ("day"), mkFI ("u9") ("day"),
   mkFI ("u10") ("day")]

/-- Counterexample to claim C4: on a page of 10 items where item 5
predates the target date (and the rest are on it), the per-item loop of
`get_posts` does NOT halt: it skips item 5 and keeps consuming the
page, returning 9 items — among them item 6 — instead of exactly items
1-4 as the claim states. -/
theorem get_posts_date_skip_not_halt :
    (processPage exDateOf 1 exPage).length = 9 ∧
      processPage exDateOf 1 exPage ≠
        [⟨some ("u1"), "hello", "day"⟩, ⟨some ("u2"), "hello", "day"⟩,
         ⟨some ("u3"), "hello", "day"⟩, ⟨some ("u4"), "hello", "day"⟩] ∧
      (⟨some ("u6"), "hello", "day"⟩ : CollectedPost) ∈
        processPage exDateOf 1 exPage := by
  refine ⟨by decide, by decide, by decide⟩

/-- The page loop distributes over concatenation of page segments. -/
theorem processPage_append (dateOf : String → Int) (target : Int)
    (l1 l2 : List FeedItem) :
    processPage dateOf target (l1 ++ l2) =
      processPage dateOf target l1 ++ processPage dateOf target l2 := by
  induction l1 with
  | nil => simp [processPage]
  | cons i is ih =>
    rw [List.cons_append, processPage, processPage]
    cases itemKeep dateOf target i with
    | none => exact ih
    | some c => rw [ih]; rfl

/-- An item the filter keeps is kept in its collected form. -/
theorem itemKeep_some_eq (dateOf : String → Int) (target : Int)
    (i : FeedItem) (c : CollectedPost)
    (h : itemKeep dateOf target i = some c) : c = asCollected i := by
  unfold itemKeep itemKeepRec at h
  split at h
  · exact absurd h (by simp)
  · split at h
    · exact absurd h (by simp)
    · rename_i s heq
      split at h
      · exact absurd h (by simp)
      · split at h
        · exact absurd h (by simp)
        · split at h
          · exact absurd h (by simp)
          · rw [Option.some_inj] at h
            unfold asCollected
            rw [heq]
            exact h.symm

/-- A page segment every item of which passes the filters is collected
wholesale, in order. -/
theorem processPage_all_kept (dateOf : String → Int) (target : Int)
    (l : List FeedItem)
    (h : ∀ i ∈ l, (itemKeep dateOf target i).isSome) :
    processPage dateOf target l = l.map asCollected := by
  induction l with
  | nil => rw [processPage]; rfl
  | cons i is ih =>
    have hi := h i (List.mem_cons_self i is)
    obtain ⟨c, hc⟩ := Option.isSome_iff_exists.mp hi
    have hstep : processPage dateOf target (i :: is) =
        c :: processPage dateOf target is := by
      rw [processPage, hc]
    rw [hstep, itemKeep_some_eq dateOf target i c hc, List.map_cons,
      ih (fun j hj => h j (List.mem_cons_of_mem i hj))]

/-- An item whose creation date is off the target date is dropped by
the filter (reaching the date check: language passes, timestamp
present and non-empty). -/
theorem itemKeep_offdate (dateOf : String → Int) (target : Int)
    (i : FeedItem) (s : String)
    (hlang : (i.record.getD emptyRec).langs = none)
    (hcd : (i.record.getD emptyRec).createdAt = some s) (hs : s ≠ "")
    (hd : dateOf s ≠ target) :
    itemKeep dateOf target i = none := by
  unfold itemKeep itemKeepRec
  rw [hlang, hcd]
  simp [hs, hd]

/-- Claim C4 as amended: when the per-item loop of `get_posts`
encounters an item whose creation date is off the target date, that
item alone is skipped and collection CONTINUES with the remaining items
of the page; for a page of 10 items whose fifth predates the target
date while the others pass all filters, collection returns exactly
items 1-4 followed by items 6-10 (9 items). -/
theorem processPage_skips_offdate (dateOf : String → Int) (target : Int)
    (a b : List FeedItem) (x : FeedItem) (s : String)
    (hkeep : ∀ i ∈ a ++ b, (itemKeep dateOf target i).isSome)
    (hlang : (x.record.getD emptyRec).langs = none)
    (hcd : (x.record.getD emptyRec).createdAt = some s) (hs : s ≠ "")
    (hd : dateOf s ≠ target)
    (hla : a.length = 4) (hlb : b.length = 5) :
    processPage dateOf target (a ++ x :: b) =
        a.map asCollected ++ b.map asCollected ∧
      (processPage dateOf target (a ++ x :: b)).length = 9 := by
  have hka : ∀ i ∈ a, (itemKeep dateOf target i).isSome :=
    fun i hi => hkeep i (List.mem_append_left b hi)
  have hkb : ∀ i ∈ b, (itemKeep dateOf target i).isSome :=
    fun i hi => hkeep i (List.mem_append_right a hi)
  have hmain : processPage dateOf target (a ++ x :: b) =
      a.map asCollected ++ b.map asCollected := by
    rw [processPage_append, processPage,
      itemKeep_offdate dateOf target x s hlang hcd hs hd,
      processPage_all_kept dateOf target a hka,
      processPage_all_kept dateOf target b hkb]
  refine ⟨hmain, ?_⟩
  rw [hmain]
  simp [hla, hlb]

/-- Concrete instance of `processPage_skips_offdate`: a ten-item page
whose fifth item predates the target day yields the other nine items. -/
theorem processPage_skips_offdate_witness :
    processPage exDateOf 1
        [mkFI ("a1") ("day"), mkFI ("a2") ("day"), mkFI ("a3") ("day"),
         mkFI ("a4") ("day"), mkFI ("a5") ("early"), mkFI ("a6") ("day"),
         mkFI ("a7") ("day"), mkFI ("a8") ("day"), mkFI ("a9") ("day"),
         mkFI ("a10") ("day")] =
      [mkFI ("a1") ("day"), mkFI ("a2") ("day"), mkFI ("a3") ("day"),
       mkFI ("a4") ("day")].map asCollected ++
      [mkFI ("a6") ("day"), mkFI ("a7") ("day"), mkFI ("a8") ("day"),
       mkFI ("a9") ("day"), mkFI ("a10") ("day")].map asCollected :=
  (processPage_skips_offdate exDateOf 1
    [mkFI ("a1") ("day"), mkFI ("a2") ("day"), mkFI ("a3") ("day"),
     mkFI ("a4") ("day")]
    [mkFI ("a6") ("day"), mkFI ("a7") ("day"), mkFI ("a8") ("day"),
     mkFI ("a9") ("day"), mkFI ("a10") ("day")]
    (mkFI ("a5") ("early")) ("early")
    (by decide) (by decide) (by decide) (by decide) (by decide)
    (by decide) (by decide)).1

/-- One unfolding of the bounded page loop. -/
theorem ndLoop_succ (creds retry : Bool) (logins : List LoginResp)
    (token : Option String) (acc : List CollectedPost)
    (gets : List GetOutcome) (n : Nat) :
    ndLoop creds retry logins token acc gets (n + 1) =
      match ndIter creds retry logins token acc gets with
      | .halt res => res
      | .cont retry2 logins2 token2 acc2 gs2 =>
        ndLoop creds retry2 logins2 token2 acc2 gs2 n := by
  rw [ndLoop]

/-- A page response outside the token-expiry path hands over to the
response-processing tail. -/
theorem ndIter_noretry (creds retry : Bool) (logins : List LoginResp)
    (token : Option String) (acc : List CollectedPost) (r : GetResp)
    (gs : List GetOutcome)
    (hbr : (r.status == 401 && r.expiredText && !retry) = false) :
    ndIter creds retry logins token acc (.resp r :: gs) =
      ndProcess retry logins token acc r gs := by
  rw [ndIter, hbr]
  simp only [Bool.false_eq_true, if_false]

/-- In the token-expiry path with a token already held, the "re-login"
is a no-op and the immediately re-requested response is processed with
the call-wide `retry` flag set. -/
theorem ndIter_retry (creds retry : Bool) (logins : List LoginResp)
    (t : String) (acc : List CollectedPost) (r r2 : GetResp)
    (gs : List GetOutcome)
    (hbr : (r.status == 401 && r.expiredText && !retry) = true) :
    ndIter creds retry logins (some t) acc
        (.resp r :: .resp r2 :: gs) =
      ndProcess true logins (some t) acc r2 gs := by
  rw [ndIter, if_pos hbr]
  simp only [doLogin]

/-- A 4xx/5xx response makes `raise_for_status` raise inside the
`try`, breaking with the accumulated posts. -/
theorem ndProcess_http (retry : Bool) (logins : List LoginResp)
    (token : Option String) (acc : List CollectedPost) (r : GetResp)
    (gs : List GetOutcome) (h4 : 400 ≤ r.status) :
    ndProcess retry logins token acc r gs = .halt (.ok acc) := by
  unfold ndProcess
  rw [if_pos h4]

/-- An empty page with no cursor ends pagination. -/
theorem ndProcess_empty_done (retry : Bool) (logins : List LoginResp)
    (token : Option String) (acc : List CollectedPost) (r : GetResp)
    (gs : List GetOutcome) (h4 : ¬ 400 ≤ r.status)
    (hps : r.posts.isEmpty = true) (hcur : truthyOpt r.cursor = false) :
    ndProcess retry logins token acc r gs = .halt (.ok acc) := by
  unfold ndProcess
  rw [if_neg h4, if_pos hps, hcur]
  simp only [Bool.false_eq_true, if_false]

/-- A successful page with no cursor is collected and ends
pagination. -/
theorem ndProcess_page_done (retry : Bool) (logins : List LoginResp)
    (token : Option String) (acc : List CollectedPost) (r : GetResp)
    (gs : List GetOutcome) (h4 : ¬ 400 ≤ r.status)
    (hps : r.posts.isEmpty = false) (hcur : truthyOpt r.cursor = false) :
    ndProcess retry logins token acc r gs =
      .halt (.ok (acc ++ ndCollectList r.posts)) := by
  unfold ndProcess
  rw [if_neg h4, hps, hcur]
  simp only [Bool.false_eq_true, if_false]

/-- A successful page with a cursor is collected and pagination
continues. -/
theorem ndProcess_page_cont (retry : Bool) (logins : List LoginResp)
    (token : Option String) (acc : List CollectedPost) (r : GetResp)
    (gs : List GetOutcome) (h4 : ¬ 400 ≤ r.status)
    (hps : r.posts.isEmpty = false) (hcur : truthyOpt r.cursor = true) :
    ndProcess retry logins token acc r gs =
      .cont retry logins token (acc ++ ndCollectList r.posts) gs := by
  unfold ndProcess
  rw [if_neg h4, hps]
  simp only [Bool.false_eq_true, if_false]
  rw [if_pos hcur]

/-- Combined step: a non-retry 4xx/5xx page ends the loop with the
accumulated posts. -/
theorem ndLoop_step_http (creds retry : Bool) (logins : List LoginResp)
    (token : Option String) (acc : List CollectedPost) (r : GetResp)
    (gs : List GetOutcome) (n : Nat)
    (hbr : (r.status == 401 && r.expiredText && !retry) = false)
    (h4 : 400 ≤ r.status) :
    ndLoop creds retry logins token acc (.resp r :: gs) (n + 1) =
      .ok acc := by
  rw [ndLoop_succ,
    ndIter_noretry creds retry logins token acc r gs hbr,
    ndProcess_http retry logins token acc r gs h4]

/-- Combined step: an empty cursorless page ends the loop. -/
theorem ndLoop_step_empty_done (creds retry : Bool)
    (logins : List LoginResp) (token : Option String)
    (acc : List CollectedPost) (r : GetResp) (gs : List GetOutcome)
    (n : Nat)
    (hbr : (r.status == 401 && r.expiredText && !retry) = false)
    (h4 : ¬ 400 ≤ r.status) (hps : r.posts.isEmpty = true)
    (hcur : truthyOpt r.cursor = false) :
    ndLoop creds retry logins token acc (.resp r :: gs) (n + 1) =
      .ok acc := by
  rw [ndLoop_succ,
    ndIter_noretry creds retry logins token acc r gs hbr,
    ndProcess_empty_done retry logins token acc r gs h4 hps hcur]

/-- Combined step: a successful cursorless page is collected and ends
the loop. -/
theorem ndLoop_step_page_done (creds retry : Bool)
    (logins : List LoginResp) (token : Option String)
    (acc : List CollectedPost) (r : GetResp) (gs : List GetOutcome)
    (n : Nat)
    (hbr : (r.status == 401 && r.expiredText && !retry) = false)
    (h4 : ¬ 400 ≤ r.status) (hps : r.posts.isEmpty = false)
    (hcur : truthyOpt r.cursor = false) :
    ndLoop creds retry logins token acc (.resp r :: gs) (n + 1) =
      .ok (acc ++ ndCollectList r.posts) := by
  rw [ndLoop_succ,
    ndIter_noretry creds retry logins token acc r gs hbr,
    ndProcess_page_done retry logins token acc r gs h4 hps hcur]

/-- Combined step: a successful page with a cursor is collected and the
loop continues on the next page slot. -/
theorem ndLoop_step_page_cont (creds retry : Bool)
    (logins : List LoginResp) (token : Option String)
    (acc : List CollectedPost) (r : GetResp) (gs : List GetOutcome)
    (n : Nat)
    (hbr : (r.status == 401 && r.expiredText && !retry) = false)
    (h4 : ¬ 400 ≤ r.status) (hps : r.posts.isEmpty = false)
    (hcur : truthyOpt r.cursor = true) :
    ndLoop creds retry logins token acc (.resp r :: gs) (n + 1) =
      ndLoop creds retry logins token (acc ++ ndCollectList r.posts)
        gs n := by
  rw [ndLoop_succ,
    ndIter_noretry creds retry logins token acc r gs hbr,
    ndProcess_page_cont retry logins token acc r gs h4 hps hcur]

/-- Combined step: the token-expiry retry with a held token is the same
as processing the re-requested response in the same page slot with the
call-wide `retry` flag set. -/
theorem ndLoop_step_retry (creds retry : Bool) (logins : List LoginResp)
    (t : String) (acc : List CollectedPost) (r r2 : GetResp)
    (gs : List GetOutcome) (n : Nat)
    (hbr : (r.status == 401 && r.expiredText && !retry) = true) :
    ndLoop creds retry logins (some t) acc
        (.resp r :: .resp r2 :: gs) (n + 1) =
      ndLoop creds true logins (some t) acc (.resp r2 :: gs) (n + 1) := by
  have hbr2 : (r2.status == 401 && r2.expiredText && !true) = false := by
    simp
  rw [ndLoop_succ, ndIter_retry creds retry logins t acc r r2 gs hbr,
    ndLoop_succ, ndIter_noretry creds true logins (some t) acc r2 gs hbr2]

/-- One unfolding of the fuel-driven `get_posts` loop. -/
theorem gpFuel_succ (creds : Bool) (dateOf : String → Int) (target : Int)
    (logins : List LoginResp) (token : Option String)
    (acc : List CollectedPost) (gets : List GetOutcome) (n : Nat) :
    gpFuel creds dateOf target logins token acc gets (n + 1) =
      match gpIter creds dateOf target logins token acc gets with
      | .halt res => res
      | .cont logins2 token2 acc2 gs2 =>
        gpFuel creds dateOf target logins2 token2 acc2 gs2 n := by
  rw [gpFuel]

/-- A non-403 response hands over to `get_posts`' processing tail. -/
theorem gpIter_no403 (creds : Bool) (dateOf : String → Int)
    (target : Int) (logins : List LoginResp) (token : Option String)
    (acc : List CollectedPost) (r : GetResp) (gs : List GetOutcome)
    (h403 : (r.status == 403) = false) :
    gpIter creds dateOf target logins token acc (.resp r :: gs) =
      gpProcess dateOf target logins token acc r gs := by
  rw [gpIter, h403]
  simp only [Bool.false_eq_true, if_false]

/-- In `get_posts` a 4xx/5xx status raises: the error propagates and
the accumulated posts are lost. -/
theorem gpProcess_http (dateOf : String → Int) (target : Int)
    (logins : List LoginResp) (token : Option String)
    (acc : List CollectedPost) (r : GetResp) (gs : List GetOutcome)
    (h4 : 400 ≤ r.status) :
    gpProcess dateOf target logins token acc r gs =
      .halt (.error .reqErr) := by
  unfold gpProcess
  rw [if_pos h4]

/-- In `get_posts` a successful page with a cursor is filtered,
collected, and the loop continues. -/
theorem gpProcess_page_cont (dateOf : String → Int) (target : Int)
    (logins : List LoginResp) (token : Option String)
    (acc : List CollectedPost) (r : GetResp) (gs : List GetOutcome)
    (h4 : ¬ 400 ≤ r.status) (hps : r.posts.isEmpty = false)
    (hcur : truthyOpt r.cursor = true) :
    gpProcess dateOf target logins token acc r gs =
      .cont logins token (acc ++ processPage dateOf target r.posts)
        gs := by
  unfold gpProcess
  rw [if_neg h4, hps, if_pos hcur]
  simp only [Bool.false_eq_true, if_false]

/-- Counterexample to claim C5: two consecutive auth rejections (401
with `ExpiredToken`) on a page request do NOT propagate as a fatal
authentication error: the second rejection's `HTTPError` is caught by
the loop's `except RequestException` and pagination just ends, with the
call returning normally (here with 0 items). -/
theorem nd_second_auth_reject_no_raise :
    getPostsNoDateFilter true (some ("tok")) []
        [.resp ⟨401, true, [], none⟩, .resp ⟨401, true, [], none⟩] 10 =
      .ok [] ∧
      ∀ e : FetchErr, getPostsNoDateFilter true (some ("tok")) []
        [.resp ⟨401, true, [], none⟩, .resp ⟨401, true, [], none⟩] 10 ≠
          .error e := by
  refine ⟨rfl, ?_⟩
  intro e h
  have h2 : (Except.ok [] : Except FetchErr (List CollectedPost)) =
      Except.error e := h
  exact Except.noConfusion h2

/-- Claim C5 as amended: a page request receiving an auth rejection
(401 with `ExpiredToken`) is retried once after a re-login attempt
(itself a no-op when a token is already held), the retry budget being
one per whole call rather than per page; a successful retry yields that
page's items, while a second auth rejection is caught and ends
pagination, returning the posts accumulated so far instead of raising a
fatal authentication error. -/
theorem nd_auth_retry_behavior (t : String) (ps : List FeedItem)
    (r2 : GetResp) (h400 : 400 ≤ r2.status) :
    getPostsNoDateFilter true (some t) []
        [.resp ⟨401, true, [], none⟩, .resp ⟨200, false, ps, none⟩] 10 =
      .ok (ndCollectList ps) ∧
    getPostsNoDateFilter true (some t) []
        [.resp ⟨401, true, [], none⟩, .resp r2] 10 = .ok [] := by
  constructor
  · have h0 : getPostsNoDateFilter true (some t) []
        [.resp ⟨401, true, [], none⟩, .resp ⟨200, false, ps, none⟩] 10 =
        ndLoop true false [] (some t) []
          [.resp ⟨401, true, [], none⟩, .resp ⟨200, false, ps, none⟩]
          (9 + 1) := rfl
    rw [h0, ndLoop_step_retry true false [] t []
      ⟨401, true, [], none⟩ ⟨200, false, ps, none⟩ [] 9 (by decide)]
    cases ps with
    | nil =>
      rw [ndLoop_step_empty_done true true [] (some t) []
        ⟨200, false, [], none⟩ [] 9 (by decide) (by decide) rfl rfl]
      rfl
    | cons p ps2 =>
      rw [ndLoop_step_page_done true true [] (some t) []
        ⟨200, false, p :: ps2, none⟩ [] 9
        (show (((200 : Nat) == 401) && false && !true) = false from rfl)
        (show ¬(400 : Nat) ≤ 200 by decide) rfl rfl]
      rw [List.nil_append]
  · have h0 : getPostsNoDateFilter true (some t) []
        [.resp ⟨401, true, [], none⟩, .resp r2] 10 =
        ndLoop true false [] (some t) []
          [.resp ⟨401, true, [], none⟩, .resp r2] (9 + 1) := rfl
    rw [h0, ndLoop_step_retry true false [] t []
      ⟨401, true, [], none⟩ r2 [] 9 (by decide)]
    exact ndLoop_step_http true true [] (some t) [] r2 [] 9
      (by simp) h400

/-- Concrete instance of `nd_auth_retry_behavior`: a successful retry
yields the page's one item; a second 401 yields a normal empty
return. -/
theorem nd_auth_retry_behavior_witness :
    getPostsNoDateFilter true (some ("tok")) []
        [.resp ⟨401, true, [], none⟩,
         .resp ⟨200, false, [mkFI ("w1") ("day")], none⟩] 10 =
      .ok (ndCollectList [mkFI ("w1") ("day")]) ∧
    getPostsNoDateFilter true (some ("tok")) []
        [.resp ⟨401, true, [], none⟩, .resp ⟨401, true, [], none⟩] 10 =
      .ok [] :=
  nd_auth_retry_behavior ("tok") [mkFI ("w1") ("day")]
    ⟨401, true, [], none⟩ (by decide)

/-- Counterexample to claim C7: in `get_posts` — the fetch loop `main`
actually calls — a 500 on the second page does NOT end pagination with
the posts accumulated so far: `raise_for_status` is outside any
try/except, so the error propagates and the first page's posts are
lost. -/
theorem get_posts_http_error_raises :
    getPosts true exDateOf 1 (some ("tok")) []
        [.resp ⟨200, false, [mkFI ("p1") ("day")], some ("c")⟩,
         .resp ⟨500, false, [], none⟩] = .error .reqErr ∧
      ∀ l : List CollectedPost, getPosts true exDateOf 1 (some ("tok")) []
        [.resp ⟨200, false, [mkFI ("p1") ("day")], some ("c")⟩,
         .resp ⟨500, false, [], none⟩] ≠ .ok l := by
  refine ⟨rfl, ?_⟩
  intro l h
  have h2 : (Except.error FetchErr.reqErr :
      Except FetchErr (List CollectedPost)) = Except.ok l := h
  exact Except.noConfusion h2

/-- Claim C7 as amended: the two fetch loops treat a non-success,
non-auth-rejection status differently.  In `get_posts_no_date_filter`
it ends pagination and the posts accumulated so far are returned; in
`get_posts` it raises — the error propagates and accumulated posts are
discarded. -/
theorem http_error_pagination_behavior (dateOf : String → Int)
    (target : Int) (p : FeedItem) (ps : List FeedItem) (r2 : GetResp)
    (h400 : 400 ≤ r2.status) (hexp : r2.expiredText = false)
    (h403 : r2.status ≠ 403) :
    getPostsNoDateFilter true (some ("tok")) []
        [.resp ⟨200, false, p :: ps, some ("c")⟩, .resp r2] 10 =
      .ok (ndCollectList (p :: ps)) ∧
    getPosts true dateOf target (some ("tok")) []
        [.resp ⟨200, false, p :: ps, some ("c")⟩, .resp r2] =
      .error .reqErr := by
  constructor
  · have h0 : getPostsNoDateFilter true (some ("tok")) []
        [.resp ⟨200, false, p :: ps, some ("c")⟩, .resp r2] 10 =
        ndLoop true false [] (some ("tok")) []
          [.resp ⟨200, false, p :: ps, some ("c")⟩, .resp r2]
          (9 + 1) := rfl
    rw [h0, ndLoop_step_page_cont true false [] (some ("tok")) []
      ⟨200, false, p :: ps, some ("c")⟩ [.resp r2] 9
      (show (((200 : Nat) == 401) && false && !false) = false from rfl)
      (show ¬(400 : Nat) ≤ 200 by decide) rfl
      (show truthyOpt (some ("c")) = true by decide)]
    have h1 : ndLoop true false [] (some ("tok"))
        ([] ++ ndCollectList (p :: ps)) [.resp r2] 9 =
        ndLoop true false [] (some ("tok"))
          ([] ++ ndCollectList (p :: ps)) [.resp r2] (8 + 1) := rfl
    rw [h1, ndLoop_step_http true false [] (some ("tok"))
      ([] ++ ndCollectList (p :: ps)) r2 [] 8 (by simp [hexp]) h400]
    rw [List.nil_append]
  · have h0 : getPosts true dateOf target (some ("tok")) []
        [.resp ⟨200, false, p :: ps, some ("c")⟩, .resp r2] =
        gpFuel true dateOf target [] (some ("tok")) []
          [.resp ⟨200, false, p :: ps, some ("c")⟩, .resp r2]
          (2 + 1) := rfl
    rw [h0, gpFuel_succ, gpIter_no403 true dateOf target [] (some ("tok"))
      [] ⟨200, false, p :: ps, some ("c")⟩ [.resp r2]
      (show (((200 : Nat) == 403)) = false from rfl),
      gpProcess_page_cont dateOf target [] (some ("tok")) []
        ⟨200, false, p :: ps, some ("c")⟩ [.resp r2]
        (show ¬(400 : Nat) ≤ 200 by decide) rfl
        (show truthyOpt (some ("c")) = true by decide)]
    show gpFuel true dateOf target [] (some ("tok"))
      ([] ++ processPage dateOf target (p :: ps)) [.resp r2] (1 + 1) =
      .error .reqErr
    rw [gpFuel_succ, gpIter_no403 true dateOf target [] (some ("tok"))
      ([] ++ processPage dateOf target (p :: ps)) r2 []
      (by simpa using h403),
      gpProcess_http dateOf target [] (some ("tok"))
        ([] ++ processPage dateOf target (p :: ps)) r2 [] h400]

/-- Concrete instance of `http_error_pagination_behavior`: one good
page then a 500. -/
theorem http_error_pagination_behavior_witness :
    getPostsNoDateFilter true (some ("tok")) []
        [.resp ⟨200, false, [mkFI ("q1") ("day")], some ("c")⟩,
         .resp ⟨500, false, [], none⟩] 10 =
      .ok (ndCollectList [mkFI ("q1") ("day")]) ∧
    getPosts true exDateOf 1 (some ("tok")) []
        [.resp ⟨200, false, [mkFI ("q1") ("day")], some ("c")⟩,
         .resp ⟨500, false, [], none⟩] =
      .error .reqErr :=
  http_error_pagination_behavior exDateOf 1 (mkFI ("q1") ("day")) []
    ⟨500, false, [], none⟩ (by decide) (by decide) (by decide)

end SMSA
